import Mathlib

/-!
Shallow embedding of the result accumulation and derivation engine of the
3photons Monte-Carlo cross-section simulator (source file `src/resfin.rs`,
with numeric helpers from `src/numeric.rs` and the configuration record from
`src/config.rs`).

Modelling conventions:

* The Rust numeric type `Real = f64` is embedded as the real numbers `ℝ`.
  Division is the total division of Mathlib (so `x / 0 = 0` where IEEE
  arithmetic would produce an infinity or a NaN) and `sqrt` is `Real.sqrt`
  (so `sqrt` of a negative number is `0` where IEEE would produce a NaN).
  Statements about the finite-arithmetic formulas of the program are
  faithful under this embedding; IEEE special values themselves are not
  representable.
* The five-channel result container `ResultVector` and the per-event
  contribution come from `rescont.rs`, which is not among the provided
  source files; its operations are modelled from the spec (see the doc
  comments below).
* Mutation of the accumulator is embedded as explicit state passing:
  `integrate` takes the accumulator and returns the updated one, and
  `finalize` consumes the accumulator and returns the final results, as in
  the source (which takes `self` by value in `finalize`).
-/

noncomputable section

/-- The squaring helper from `src/numeric.rs`: `sqr(x) = x * x`. -/
def sqr (x : ℝ) : ℝ := x * x

/-- Natural-exponent core of the recursive integer power function `powi`
from `src/numeric.rs`: `powi(x,0)=1`, `powi(x,1)=x`, and for `n ≥ 2`
`powi(x,n) = powi(x, n%2) * powi(x*x, n/2)`. -/
def powiNat (x : ℝ) : ℕ → ℝ
  | 0 => 1
  | 1 => x
  | n + 2 => powiNat x ((n + 2) % 2) * powiNat (x * x) ((n + 2) / 2)
  termination_by n => n
  decreasing_by all_goals omega

/-- The integer power function `powi` from `src/numeric.rs`; for negative
exponents the source computes `1 / powi(x, -n)`. -/
def powi (x : ℝ) (n : ℤ) : ℝ :=
  if 0 ≤ n then powiNat x n.toNat else 1 / powiNat x (-n).toNat

/-- Modelled from the spec: `FixedChannelVector` (`ResultVector` in
`rescont.rs`, which is not among the provided source files) is "an ordered
sequence of exactly 5 numeric values" indexed by the fixed channel
enumeration. -/
abbrev RVec := Fin 5 → ℝ

/-- Modelled from the spec: elementwise addition of two channel vectors
(the `+=` of `ResultVector` used by `integrate`). -/
def RVec.add (a b : RVec) : RVec := fun i => a i + b i

/-- Modelled from the spec: elementwise unary map over a channel vector
(the `.map(sqr)` used by `integrate`). -/
def RVec.map (a : RVec) (f : ℝ → ℝ) : RVec := fun i => f (a i)

/-- Modelled from the spec: weighted dot product of a channel vector
against a coefficient vector (the `.dot` used by `integrate`). -/
def RVec.dot (a b : RVec) : ℝ := ∑ i, a i * b i

/-- Modelled from the spec: the all-zero channel vector
(`ResultVector::zero()`). -/
def RVec.zero : RVec := fun _ => 0

/-- Modelled from the spec: number of incoming particles of the simulated
process e⁺e⁻ → 3γ. The constant lives in `event.rs`, which is not among
the provided source files; the analytic cross-check functions assert that
it equals 2. -/
def INCOMING_COUNT : ℕ := 2

/-- Modelled from the spec: number of outgoing particles (photons) of the
simulated process e⁺e⁻ → 3γ. The constant lives in `event.rs`, which is
not among the provided source files; the analytic cross-check functions
assert that it equals 3, and the spec writes the phase-space normalization
as `(2π)^(4−3×N_outgoing)`. -/
def OUTGOING_COUNT : ℕ := 3

/-- Modelled from the spec and from `src/config.rs`: the event-cut record
(`evcut.rs` is not among the provided source files). Field order follows
`EventCut::new(beam_photons_cut, photon_photon_cut, e_min,
beam_photon_plane_cut)`; `resfin.rs` reads the fields under the names
`b_cut`, `e_min` and `sin_cut`. -/
structure EventCut where
  a_cut : ℝ
  b_cut : ℝ
  e_min : ℝ
  sin_cut : ℝ

/-- The simulation configuration from `src/config.rs`. The field names
follow the usage in `resfin.rs` (`convers` = `gev2_to_picobarn`,
`e_tot` = `e_total`, `sin2_w` = `sin2_weinberg`,
`br_ep_em` = `branching_ep_em`). -/
structure Configuration where
  num_events : ℕ
  e_tot : ℝ
  event_cut : EventCut
  alpha : ℝ
  alpha_z : ℝ
  convers : ℝ
  m_z0 : ℝ
  g_z0 : ℝ
  sin2_w : ℝ
  br_ep_em : ℝ
  beta_plus : ℝ
  beta_minus : ℝ
  num_bins : ℤ
  impr : Bool
  plot : Bool

/-- Two's-complement reduction of an integer into the `i32` value range
`[-2^31, 2^31)`: the value a wrapping 32-bit increment leaves in the
source's `selected_events: i32` counter. -/
def wrapI32 (n : ℤ) : ℤ := (n + 2 ^ 31) % 2 ^ 32 - 2 ^ 31

/-- The intermediary result accumulator `ResultsBuilder` from
`src/resfin.rs` (the `i32` event counter is embedded as `ℤ` together with
an explicit two's-complement wrap at the `i32` width on every write, see
`integrate`; the borrowed configuration reference is embedded as a field
holding the value). -/
structure ResultsBuilder where
  selected_events : ℤ
  spm2 : RVec
  vars : RVec
  sigma_contribs : RVec
  sigma : ℝ
  variance : ℝ
  config : Configuration
  fact_com : ℝ
  norm_weight : ℝ
  propag : ℝ
  ecart_pic : ℝ

/-- `ResultsBuilder::new` from `src/resfin.rs`: derives all cached physics
scalars and the per-channel contribution weights from the configuration
and the raw event weight. -/
def ResultsBuilder.new (cfg : Configuration) (event_weight : ℝ) : ResultsBuilder :=
  let fact_com := 1 / 6 * cfg.convers
  let gzr := cfg.g_z0 / cfg.m_z0
  let p_aa : ℝ := 2
  let p_ab := 1 - 4 * cfg.sin2_w
  let p_bb := p_ab + 8 * sqr cfg.sin2_w
  let c_aa := fact_com * p_aa
  let c_ab := fact_com * p_ab / sqr cfg.m_z0
  let c_bb := fact_com * p_bb / powi cfg.m_z0 4
  let dzeta := sqr (cfg.e_tot / cfg.m_z0)
  let ecart_pic := (dzeta - 1) / gzr
  let propag := 1 / (1 + sqr ecart_pic)
  let n_ev : ℝ := cfg.num_events
  let norm := powi (2 * Real.pi) (4 - 3 * (OUTGOING_COUNT : ℤ)) / n_ev
  let norm_weight := event_weight * norm
  let com_contrib := norm_weight / 4
  let aa_contrib := com_contrib * c_aa
  let bb_contrib := com_contrib * c_bb * propag / sqr gzr
  let ab_contrib := com_contrib * c_ab * 2 * cfg.beta_plus * propag / gzr
  let sigma_contribs : RVec :=
    ![aa_contrib,
      bb_contrib * sqr cfg.beta_plus,
      bb_contrib * sqr cfg.beta_minus,
      ab_contrib * ecart_pic,
      -ab_contrib]
  { selected_events := 0
    spm2 := RVec.zero
    vars := RVec.zero
    sigma_contribs := sigma_contribs
    sigma := 0
    variance := 0
    config := cfg
    fact_com := fact_com
    norm_weight := norm_weight
    propag := propag
    ecart_pic := ecart_pic }

/-- `ResultsBuilder::integrate` from `src/resfin.rs`. The argument is the
per-event channel vector (`result.m2_sums()` in the source; the
`ResultContribution` wrapper lives in `rescont.rs`, not among the provided
source files, and the spec describes the per-event input as a
`FixedChannelVector` of 5 real values). The counter increment
`self.selected_events += 1` acts on an `i32` and is embedded with
two's-complement wrapping at the `i32` width, the release-build Rust
semantics of overflow (debug builds abort at the same point). -/
def ResultsBuilder.integrate (self : ResultsBuilder) (spm2_dif : RVec) : ResultsBuilder :=
  let weight := RVec.dot spm2_dif self.sigma_contribs
  { self with
    selected_events := wrapI32 (self.selected_events + 1)
    spm2 := RVec.add self.spm2 spm2_dif
    vars := RVec.add self.vars (spm2_dif.map sqr)
    sigma := self.sigma + weight
    variance := self.variance + sqr weight }

/-- Sequential integration of a list of contributions (the event loop
calling `integrate` once per event). -/
def integrateList (s : ResultsBuilder) (rs : List RVec) : ResultsBuilder :=
  rs.foldl ResultsBuilder.integrate s

/-- Embedding of a Rust `for k in lo..hi` loop that updates the entries of
a channel vector in place with `f` at the indices `lo ≤ k < hi`. -/
def applyRange (lo hi : ℕ) (f : ℝ → ℝ) (v : RVec) : RVec :=
  fun i => if lo ≤ (i : ℕ) ∧ (i : ℕ) < hi then f (v i) else v i

/-- The final results record `FinalResults` from `src/resfin.rs`
(2 spin states × 5 channels). -/
structure FinalResults where
  selected_events : ℤ
  spm2 : Fin 2 → RVec
  vars : Fin 2 → RVec
  sigma : ℝ
  prec : ℝ
  variance : ℝ
  beta_min : ℝ
  ss_p : ℝ
  inc_ss_p : ℝ
  ss_m : ℝ
  inc_ss_m : ℝ
  config : Configuration

/-- `ResultsBuilder::finalize` from `src/resfin.rs`, written as a pure
function: every mutation of the `results` record in the source becomes a
`let`-binding here, in source order. -/
def ResultsBuilder.finalize (self : ResultsBuilder) : FinalResults :=
  let cfg := self.config
  let n_ev : ℝ := cfg.num_events
  -- First loop: two-pass variance then relative uncertainty, spin 0
  let var0 : RVec := fun i =>
    let v := (self.vars i - sqr (self.spm2 i) / n_ev) / (n_ev - 1)
    Real.sqrt (v / n_ev) / |self.spm2 i / n_ev|
  -- `spm2[1] = spm2[0]; var[1] = var[0]` : both spins start from the same
  -- accumulated channel vector and the same relative uncertainties
  let pol_p := -2 * cfg.sin2_w
  let pol_m := 1 + pol_p
  let pol : Fin 2 → ℝ := ![pol_m, pol_p]
  -- `for k in 1..3 { spm2[s][k] *= sqr(pol) }` then
  -- `for k in 3..5 { spm2[s][k] *= pol }`
  let spm2_pol : Fin 2 → RVec := fun s =>
    applyRange 3 5 (fun x => x * pol s)
      (applyRange 1 3 (fun x => x * sqr (pol s)) self.spm2)
  let flux := 1 / (2 * sqr cfg.e_tot)
  let gz0_mz0 := cfg.g_z0 * cfg.m_z0
  let chan_scale : RVec :=
    ![1,
      self.propag / sqr gz0_mz0,
      self.propag / sqr gz0_mz0,
      self.propag * self.ecart_pic / gz0_mz0,
      self.propag / gz0_mz0]
  let spm2_f : Fin 2 → RVec := fun s => fun i =>
    spm2_pol s i * (self.fact_com * flux * self.norm_weight) * chan_scale i
  let ss_denom := spm2_f 0 0 + spm2_f 1 0
  let inc_ss_common :=
    Real.sqrt (sqr (spm2_f 0 0 * var0 0) + sqr (spm2_f 1 0 * var0 0)) /
      (2 * |ss_denom|)
  let variance_f := (self.variance - sqr self.sigma / n_ev) / (n_ev - 1)
  { selected_events := self.selected_events
    spm2 := spm2_f
    vars := fun _ => var0
    sigma := self.sigma * flux
    prec := Real.sqrt (variance_f / n_ev) / |self.sigma / n_ev|
    variance := variance_f
    beta_min := Real.sqrt ((spm2_f 0 0 + spm2_f 1 0) / (spm2_f 0 1 + spm2_f 1 1))
    ss_p := (spm2_f 0 1 + spm2_f 1 1) / (2 * Real.sqrt ss_denom)
    inc_ss_p :=
      Real.sqrt (sqr (spm2_f 0 1 * var0 1) + sqr (spm2_f 1 1 * var0 1)) /
          |spm2_f 0 1 + spm2_f 1 1| + inc_ss_common
    ss_m := (spm2_f 0 2 + spm2_f 1 2) / (2 * Real.sqrt ss_denom)
    inc_ss_m :=
      Real.sqrt (sqr (spm2_f 0 2 * var0 2) + sqr (spm2_f 1 2 * var0 2)) /
          |spm2_f 0 2 + spm2_f 1 2| + inc_ss_common
    config := cfg }

/-- The values displayed by `FinalResults::eric` in `src/resfin.rs`, one
field per printed numeric expression, in print order. -/
structure EricReport where
  sigma0_m : ℝ
  sigma0_p : ℝ
  alpha0_m : ℝ
  alpha0_p : ℝ
  beta0_m : ℝ
  beta0_p : ℝ
  lambda0_m : ℝ
  lambda0_p : ℝ
  mu0_m : ℝ
  mu0_p : ℝ
  mu_lamb_m : ℝ
  mu_lamb_p : ℝ
  mu_num : ℝ
  rapport : ℝ
  mu_th : ℝ

/-- `FinalResults::eric` from `src/resfin.rs`. The two `assert_eq!` checks
at the top are embedded as a guard returning `none` (the panic case); the
`&self` receiver is embedded by returning the post-call record alongside
the report (the body never writes to `self`, so the post-call record is
`self` itself). -/
def FinalResults.eric (self : FinalResults) : Option (EricReport × FinalResults) :=
  if INCOMING_COUNT = 2 ∧ OUTGOING_COUNT = 3 then
    let cfg := self.config
    let mu_th := cfg.br_ep_em * cfg.convers /
      (8 * 9 * 5 * sqr Real.pi * cfg.m_z0 * cfg.g_z0)
    let lambda0_m := (-self.spm2 0 1 + self.spm2 0 2) / 2
    let lambda0_p := (-self.spm2 1 1 + self.spm2 1 2) / 2
    let mu0_m := (self.spm2 0 1 + self.spm2 0 2) / 2
    let mu0_p := (self.spm2 1 1 + self.spm2 1 2) / 2
    let mu_num := (self.spm2 0 1 + self.spm2 0 2 + self.spm2 1 1 + self.spm2 1 2) / 4
    some
      ({ sigma0_m := self.spm2 0 0 / 2
         sigma0_p := self.spm2 1 0 / 2
         alpha0_m := self.spm2 0 4 / 2
         alpha0_p := self.spm2 1 4 / 2
         beta0_m := -self.spm2 0 3 / 2
         beta0_p := -self.spm2 1 3 / 2
         lambda0_m := lambda0_m
         lambda0_p := lambda0_p
         mu0_m := mu0_m
         mu0_p := mu0_p
         mu_lamb_m := mu0_m / lambda0_m
         mu_lamb_p := mu0_p / lambda0_p
         mu_num := mu_num
         rapport := mu_num / mu_th
         mu_th := mu_th }, self)
  else none

/-- The values displayed by `FinalResults::fawzi` in `src/resfin.rs`:
the analytic cross-sections and the Monte-Carlo values and uncertainties
they are compared with. -/
structure FawziReport where
  sig : ℝ
  sig_p : ℝ
  sig_m : ℝ
  mc_p : ℝ
  mc_m : ℝ
  incr_p : ℝ
  incr_m : ℝ

/-- `FinalResults::fawzi` from `src/resfin.rs`, embedded like `eric`:
the two `assert_eq!` checks become a guard returning `none`, and the
read-only `&self` receiver is embedded by returning the post-call record
alongside the report. -/
def FinalResults.fawzi (self : FinalResults) : Option (FawziReport × FinalResults) :=
  if INCOMING_COUNT = 2 ∧ OUTGOING_COUNT = 3 then
    let cfg := self.config
    let ev_cut := cfg.event_cut
    let mre := cfg.m_z0 / cfg.e_tot
    let gre := cfg.g_z0 * cfg.m_z0 / sqr cfg.e_tot
    let x := 1 - sqr mre
    let sdz : ℂ := (⟨x, -gre⟩ : ℂ) / (((sqr x + sqr gre : ℝ)) : ℂ)
    let del := (1 - ev_cut.b_cut) / 2
    let eps := 2 * ev_cut.e_min / cfg.e_tot
    let bra := cfg.m_z0 / (3 * 6 * powi Real.pi 3 * 16 * 120)
    let sig := 12 * Real.pi / sqr cfg.m_z0 * cfg.br_ep_em * cfg.g_z0 * bra / sqr cfg.e_tot *
      powi (cfg.e_tot / cfg.m_z0) 8 * Complex.normSq sdz * cfg.convers
    let eps_4 := powi eps 4
    let del_2 := powi del 2
    let del_3 := powi del 3
    let f1 := 1 - 15 * eps_4
      - 9 / 7 * (1 - 70 * eps_4) * del_2
      + 6 / 7 * (1 + 70 * eps_4) * del_3
    let g1 := 1 - 30 * eps_4
      - 9 / 7 * (1 - 70 * eps_4) * del
      - 90 * eps_4 * del_2
      - 1 / 7 * (1 - 420 * eps_4) * del_3
    let g2 := 1 - 25 * eps_4
      - 6 / 7 * (1 - 70 * eps_4) * del
      - 3 / 7 * (1 + 210 * eps_4) * del_2
      - 8 / 21 * (1 - 52.5 * eps_4) * del_3
    let g3 := 1 - 195 / 11 * eps_4
      - 18 / 77 * (1 - 7 * eps_4) * del
      - 9 / 11 * (9 / 7 - 70 * eps_4) * del_2
      - 8 / 11 * (1 - 105 / 11 * eps_4) * del_3
    let sincut_3 := powi ev_cut.sin_cut 3
    let ff := f1 * (1 - sincut_3)
    let gg := g1 - 27 / 16 * g2 * ev_cut.sin_cut + 11 / 16 * g3 * sincut_3
    let sig_p := sig * (ff + 2 * gg)
    let sig_m := sig_p + 2 * sig * gg
    let mc_p := (self.spm2 0 1 + self.spm2 1 1) / 4
    let mc_m := (self.spm2 0 2 + self.spm2 1 2) / 4
    let incr_p := Real.sqrt (sqr (self.spm2 0 1 * self.vars 0 1) +
        sqr (self.spm2 1 1 * self.vars 1 1)) / |self.spm2 0 1 + self.spm2 1 1|
    let incr_m := Real.sqrt (sqr (self.spm2 0 2 * self.vars 0 2) +
        sqr (self.spm2 1 2 * self.vars 1 2)) / |self.spm2 0 2 + self.spm2 1 2|
    some
      ({ sig := sig
         sig_p := sig_p
         sig_m := sig_m
         mc_p := mc_p
         mc_m := mc_m
         incr_p := incr_p
         incr_m := incr_m }, self)
  else none

/-- The per-spin electroweak polarisation factor applied in `finalize`:
spin 0 receives `pol_m = 1 - 2·sin²θ_W` and spin 1 receives
`pol_p = -2·sin²θ_W`. -/
def spinPol (cfg : Configuration) : Fin 2 → ℝ :=
  ![1 + -2 * cfg.sin2_w, -2 * cfg.sin2_w]

/-- The channel-specific propagator/mass scale vector applied in
`finalize`: channel 0 unscaled, channels 1 and 2 scaled by
`propag/(Γ_Z·M_Z)²`, channel 3 by `propag·ecart_pic/(Γ_Z·M_Z)` and
channel 4 by `propag/(Γ_Z·M_Z)`. -/
def chanScaleFactor (b : ResultsBuilder) : RVec :=
  ![1,
    b.propag / sqr (b.config.g_z0 * b.config.m_z0),
    b.propag / sqr (b.config.g_z0 * b.config.m_z0),
    b.propag * b.ecart_pic / (b.config.g_z0 * b.config.m_z0),
    b.propag / (b.config.g_z0 * b.config.m_z0)]

/-- The accumulated channel vector after the polarisation loops of
`finalize` (one copy per spin, both starting from the same accumulated
`spm2`). -/
def polarizedSpm2 (b : ResultsBuilder) (s : Fin 2) : RVec :=
  applyRange 3 5 (fun x => x * spinPol b.config s)
    (applyRange 1 3 (fun x => x * sqr (spinPol b.config s)) b.spm2)

/-- A concrete configuration used to evaluate the engine at a specific
input: 4 configured events, unit energies and masses, vanishing Weinberg
angle, and a conversion factor cancelling the 1/6 symmetry factor. -/
def cexCfg : Configuration :=
  { num_events := 4
    e_tot := 1
    event_cut := ⟨0, 0, 0, 0⟩
    alpha := 0
    alpha_z := 0
    convers := 6
    m_z0 := 1
    g_z0 := 1
    sin2_w := 0
    br_ep_em := 1
    beta_plus := 1
    beta_minus := 1
    num_bins := 0
    impr := false
    plot := false }

/-- A concrete raw event weight chosen to cancel the phase-space
normalization `(2π)^(4-3*3) / 4` of `cexCfg`, so that the normalized
weight is exactly 1. -/
def cexW : ℝ := 4 * (2 * Real.pi) ^ (5 : ℤ)

/-- A concrete per-event contribution: 2 in channel 0, zero elsewhere. -/
def cexR : RVec := ![2, 0, 0, 0, 0]

/-- The accumulator obtained by integrating exactly one event (`cexR`)
into a fresh accumulator built from `cexCfg` and `cexW`. -/
def cexBuilder : ResultsBuilder := (ResultsBuilder.new cexCfg cexW).integrate cexR

/-- A concrete accumulator whose event counter stands at the `i32`
maximum `2^31 - 1` (the state reached after `2^31 - 1` integrate calls),
used to exhibit the wrap of the next counter increment. -/
def cexMaxBuilder : ResultsBuilder :=
  { ResultsBuilder.new cexCfg 0 with selected_events := 2 ^ 31 - 1 }

theorem powiNat_eq (n : ℕ) : ∀ x : ℝ, powiNat x n = x ^ n := by
  induction n using Nat.strong_induction_on with
  | _ n ih =>
    intro x
    match n with
    | 0 => simp [powiNat]
    | 1 => simp [powiNat]
    | m + 2 =>
      rw [powiNat, ih ((m + 2) % 2) (by omega) x, ih ((m + 2) / 2) (by omega) (x * x),
        ← pow_two x, ← pow_mul, ← pow_add]
      congr 1
      omega

theorem powi_eq_zpow (x : ℝ) (n : ℤ) : powi x n = x ^ n := by
  unfold powi
  split
  · rename_i h
    rw [powiNat_eq, ← zpow_natCast, Int.toNat_of_nonneg h]
  · rename_i h
    rw [powiNat_eq, ← zpow_natCast, Int.toNat_of_nonneg (by omega : (0:ℤ) ≤ -n),
      zpow_neg, one_div, inv_inv]

lemma wrapI32_eq_self (n : ℤ) (h1 : -2 ^ 31 ≤ n) (h2 : n < 2 ^ 31) : wrapI32 n = n := by
  unfold wrapI32
  rw [Int.emod_eq_of_lt (by norm_num; omega) (by norm_num; omega)]
  ring

lemma integrateList_selected (rs : List RVec) :
    ∀ s : ResultsBuilder, 0 ≤ s.selected_events →
      s.selected_events + rs.length < 2 ^ 31 →
      (integrateList s rs).selected_events = s.selected_events + rs.length := by
  induction rs with
  | nil => intro s h1 h2; simp [integrateList]
  | cons a t ih =>
    intro s h1 h2
    simp only [List.length_cons] at h2
    have hsel : (s.integrate a).selected_events = s.selected_events + 1 := by
      show wrapI32 (s.selected_events + 1) = _
      apply wrapI32_eq_self
      · norm_num
        omega
      · norm_num at h2 ⊢
        push_cast at h2
        omega
    show (integrateList (s.integrate a) t).selected_events = _
    rw [ih (s.integrate a) (by rw [hsel]; omega)
      (by rw [hsel]; norm_num at h2 ⊢; push_cast at h2 ⊢; omega), hsel]
    simp only [List.length_cons]
    push_cast
    ring

lemma integrateList_zero_sums (N : ℕ) :
    ∀ s : ResultsBuilder, s.sigma = 0 → s.variance = 0 →
      (integrateList s (List.replicate N RVec.zero)).sigma = 0 ∧
      (integrateList s (List.replicate N RVec.zero)).variance = 0 := by
  induction N with
  | zero => intro s h1 h2; exact ⟨h1, h2⟩
  | succ n ih =>
    intro s h1 h2
    rw [List.replicate_succ]
    show (integrateList (s.integrate RVec.zero) (List.replicate n RVec.zero)).sigma = 0 ∧ _
    apply ih
    · simp [ResultsBuilder.integrate, RVec.dot, RVec.zero, h1]
    · simp [ResultsBuilder.integrate, RVec.dot, RVec.zero, h2, sqr]

lemma cexBuilder_sigma : cexBuilder.sigma = 1 := by
  have h : (2 * Real.pi) ^ (5 : ℤ) ≠ 0 := zpow_ne_zero _ (by positivity)
  simp [cexBuilder, ResultsBuilder.integrate, ResultsBuilder.new, cexCfg, cexW, cexR,
    RVec.dot, Fin.sum_univ_five, OUTGOING_COUNT, powi_eq_zpow, sqr]
  field_simp
  ring

lemma cexBuilder_variance : cexBuilder.variance = 1 := by
  have h : (2 * Real.pi) ^ (5 : ℤ) ≠ 0 := zpow_ne_zero _ (by positivity)
  simp [cexBuilder, ResultsBuilder.integrate, ResultsBuilder.new, cexCfg, cexW, cexR,
    RVec.dot, Fin.sum_univ_five, OUTGOING_COUNT, powi_eq_zpow, sqr]
  field_simp
  ring

lemma cexBuilder_selected : cexBuilder.selected_events = 1 := by
  show wrapI32 ((ResultsBuilder.new cexCfg cexW).selected_events + 1) = 1
  decide

/-- Claim C1, counterexample. An accumulator on which `integrate` was
called exactly once (so `events_integrated = 1 < 2`) but whose
configuration requests 4 events: `finalize` does not report any failure
and produces the perfectly finite values `variance = 1/4` and `prec = 1`
(the ordinary two-pass formulas evaluated with the configured event count
4), contradicting the claim that the variance and precision would be
NaN/Infinity-tagged and that `finalize` would fail explicitly. -/
theorem C1_counterexample :
    cexBuilder.selected_events = 1 ∧
    cexBuilder.finalize.variance = 1 / 4 ∧
    cexBuilder.finalize.prec = 1 := by
  refine ⟨cexBuilder_selected, ?_, ?_⟩
  · have h : cexBuilder.finalize.variance =
        (cexBuilder.variance - sqr cexBuilder.sigma / (cexCfg.num_events : ℝ)) /
          ((cexCfg.num_events : ℝ) - 1) := rfl
    rw [h, cexBuilder_sigma, cexBuilder_variance]
    norm_num [cexCfg, sqr]
  · have h : cexBuilder.finalize.prec =
        Real.sqrt (((cexBuilder.variance - sqr cexBuilder.sigma / (cexCfg.num_events : ℝ)) /
          ((cexCfg.num_events : ℝ) - 1)) / (cexCfg.num_events : ℝ)) /
          |cexBuilder.sigma / (cexCfg.num_events : ℝ)| := rfl
    rw [h, cexBuilder_sigma, cexBuilder_variance]
    have hn : (cexCfg.num_events : ℝ) = 4 := by norm_num [cexCfg]
    rw [hn, show ((1 : ℝ) - sqr 1 / 4) / (4 - 1) / 4 = (1 / 4 : ℝ) ^ 2 by norm_num [sqr],
      Real.sqrt_sq (by norm_num), abs_of_pos (by norm_num : (0 : ℝ) < 1 / 4)]
    norm_num

/-- Claim C1, amended. `finalize` performs no check of `selected_events`
and never fails: for every configuration, raw weight and single
contribution, the accumulator after exactly one `integrate` call
finalizes to the ordinary two-pass formulas whose denominators are the
configured `num_events` (not the integrated-event count), so with
`num_events ≥ 2` and non-degenerate sums the variance and precision are
plain finite numbers; division by zero (IEEE NaN/Infinity) arises only
from `num_events < 2` or degenerate accumulated statistics. -/
theorem C1_finalize_single_event_uses_configured_count
    (cfg : Configuration) (w : ℝ) (r : RVec) :
    ((ResultsBuilder.new cfg w).integrate r).selected_events = 1 ∧
    ((ResultsBuilder.new cfg w).integrate r).finalize.variance =
      (((ResultsBuilder.new cfg w).integrate r).variance -
          sqr ((ResultsBuilder.new cfg w).integrate r).sigma / (cfg.num_events : ℝ)) /
        ((cfg.num_events : ℝ) - 1) ∧
    ((ResultsBuilder.new cfg w).integrate r).finalize.prec =
      Real.sqrt (((ResultsBuilder.new cfg w).integrate r).finalize.variance /
          (cfg.num_events : ℝ)) /
        |((ResultsBuilder.new cfg w).integrate r).sigma / (cfg.num_events : ℝ)| := by
  refine ⟨?_, rfl, rfl⟩
  show wrapI32 ((ResultsBuilder.new cfg w).selected_events + 1) = 1
  show wrapI32 (0 + 1) = 1
  decide

/-- Claim C2, counterexample. At the concrete accumulator whose `i32`
event counter stands at `i32::MAX = 2^31 - 1` (the state reached after
`2^31 - 1` integrate calls), one further call to `integrate` does not
increment `events_integrated` by 1: the counter wraps to `-2^31`,
refuting the claim that every call increments the counter by exactly 1
(so that N calls from a fresh accumulator always yield exactly N) and
never fails. -/
theorem C2_counterexample :
    (cexMaxBuilder.integrate RVec.zero).selected_events ≠
      cexMaxBuilder.selected_events + 1 ∧
    (cexMaxBuilder.integrate RVec.zero).selected_events = -(2 ^ 31) := by
  constructor
  · show wrapI32 (cexMaxBuilder.selected_events + 1) ≠ _
    decide
  · show wrapI32 (cexMaxBuilder.selected_events + 1) = _
    decide

/-- Claim C2, amended. One call to `integrate` performs a wrapping
32-bit increment of `events_integrated` (`selected_events: i32`), which
equals an exact `+1` whenever the incremented value stays in the `i32`
range; it adds the contribution elementwise into the accumulated sum
`spm2`, adds the elementwise-squared contribution into the squared sum
`vars`, adds the scalar weight (the dot product of the contribution with
`sigma_contribs`) into `sigma`, adds the squared weight into `variance`,
and modifies no other accumulator field; and after integrating any list
of N contributions into a fresh accumulator, with N below `2^31`, the
counter equals exactly N (at `2^31` calls the release-build counter
wraps, and debug builds abort). -/
theorem C2_integrate_effect (s : ResultsBuilder) (r : RVec) :
    (s.integrate r).selected_events = wrapI32 (s.selected_events + 1) ∧
    (-2 ^ 31 ≤ s.selected_events + 1 → s.selected_events + 1 < 2 ^ 31 →
      (s.integrate r).selected_events = s.selected_events + 1) ∧
    (∀ i, (s.integrate r).spm2 i = s.spm2 i + r i) ∧
    (∀ i, (s.integrate r).vars i = s.vars i + sqr (r i)) ∧
    (s.integrate r).sigma = s.sigma + RVec.dot r s.sigma_contribs ∧
    (s.integrate r).variance = s.variance + sqr (RVec.dot r s.sigma_contribs) ∧
    (s.integrate r).sigma_contribs = s.sigma_contribs ∧
    (s.integrate r).config = s.config ∧
    (s.integrate r).fact_com = s.fact_com ∧
    (s.integrate r).norm_weight = s.norm_weight ∧
    (s.integrate r).propag = s.propag ∧
    (s.integrate r).ecart_pic = s.ecart_pic ∧
    ∀ (cfg : Configuration) (w : ℝ) (rs : List RVec), (rs.length : ℤ) < 2 ^ 31 →
      (integrateList (ResultsBuilder.new cfg w) rs).selected_events = rs.length := by
  refine ⟨rfl, ?_, fun i => rfl, fun i => rfl, rfl, rfl, rfl, rfl, rfl, rfl, rfl, rfl, ?_⟩
  · intro h1 h2
    exact wrapI32_eq_self _ h1 h2
  · intro cfg w rs hrs
    rw [integrateList_selected rs (ResultsBuilder.new cfg w) le_rfl]
    · show (0 : ℤ) + rs.length = rs.length
      ring
    · show (0 : ℤ) + rs.length < 2 ^ 31
      omega

/-- Claim C2, witness. The amended integrate effect exercised at a
concrete in-range input: the fresh accumulator built from `cexCfg` with
zero weight, one `integrate` call of the all-zero contribution, and a
list of two such contributions. -/
theorem C2_integrate_effect_witness :
    (-2 ^ 31 ≤ (ResultsBuilder.new cexCfg 0).selected_events + 1 ∧
     (ResultsBuilder.new cexCfg 0).selected_events + 1 < 2 ^ 31 ∧
     ((List.replicate 2 RVec.zero).length : ℤ) < 2 ^ 31) ∧
    ((ResultsBuilder.new cexCfg 0).integrate RVec.zero).selected_events =
      (ResultsBuilder.new cexCfg 0).selected_events + 1 ∧
    (integrateList (ResultsBuilder.new cexCfg 0)
      (List.replicate 2 RVec.zero)).selected_events =
      (List.replicate 2 RVec.zero).length := by
  obtain ⟨-, hB, -, -, -, -, -, -, -, -, -, -, hL⟩ :=
    C2_integrate_effect (ResultsBuilder.new cexCfg 0) RVec.zero
  exact ⟨⟨by decide, by decide, by decide⟩, hB (by decide) (by decide),
    hL cexCfg 0 (List.replicate 2 RVec.zero) (by decide)⟩

/-- Claim C3. For every finalized accumulator, writing n for the
configured event count: each per-channel relative uncertainty of the
reference spin state is `sqrt(((sum_sq - sum²/n)/(n-1))/n) / |sum/n|`
(two-pass variance converted to a relative uncertainty); the total
variance is the same two-pass formula applied to the accumulated `sigma`
and `variance` sums; the relative precision is `sqrt(variance/n)/|sigma/n|`;
and the total cross-section is scaled by the flux factor `1/(2·E_total²)`. -/
theorem C3_finalize_two_pass_formulas (b : ResultsBuilder) :
    (∀ i, b.finalize.vars 0 i =
      Real.sqrt (((b.vars i - sqr (b.spm2 i) / (b.config.num_events : ℝ)) /
          ((b.config.num_events : ℝ) - 1)) / (b.config.num_events : ℝ)) /
        |b.spm2 i / (b.config.num_events : ℝ)|) ∧
    b.finalize.variance =
      (b.variance - sqr b.sigma / (b.config.num_events : ℝ)) /
        ((b.config.num_events : ℝ) - 1) ∧
    b.finalize.prec =
      Real.sqrt (b.finalize.variance / (b.config.num_events : ℝ)) /
        |b.sigma / (b.config.num_events : ℝ)| ∧
    b.finalize.sigma = b.sigma * (1 / (2 * sqr b.config.e_tot)) :=
  ⟨fun i => rfl, rfl, rfl, rfl⟩

/-- Claim C4. Construction of the accumulator computes
`fact_com = (1/6)·convers` (the GeV⁻² → pb conversion factor), the
detuning `ecart_pic = ((E_total/M_Z)² - 1)/gzr` with `gzr = Γ_Z/M_Z`, the
propagator `propag = 1/(1 + ecart_pic²)`, and the normalized weight
`norm_weight = w · (2π)^(4-3·N_outgoing)/N_events`; and `integrate` never
changes any of these cached scalars (and `finalize` consumes the
accumulator, so nothing can recompute them afterwards). -/
theorem C4_new_cached_scalars (cfg : Configuration) (w : ℝ) :
    (ResultsBuilder.new cfg w).fact_com = 1 / 6 * cfg.convers ∧
    (ResultsBuilder.new cfg w).ecart_pic =
      (sqr (cfg.e_tot / cfg.m_z0) - 1) / (cfg.g_z0 / cfg.m_z0) ∧
    (ResultsBuilder.new cfg w).propag =
      1 / (1 + sqr ((ResultsBuilder.new cfg w).ecart_pic)) ∧
    (ResultsBuilder.new cfg w).norm_weight =
      w * (powi (2 * Real.pi) (4 - 3 * (OUTGOING_COUNT : ℤ)) / (cfg.num_events : ℝ)) ∧
    ∀ (s : ResultsBuilder) (r : RVec),
      (s.integrate r).fact_com = s.fact_com ∧
      (s.integrate r).norm_weight = s.norm_weight ∧
      (s.integrate r).propag = s.propag ∧
      (s.integrate r).ecart_pic = s.ecart_pic :=
  ⟨rfl, rfl, rfl, rfl, fun s r => ⟨rfl, rfl, rfl, rfl⟩⟩

/-- Claim C5. In `finalize`, both spin states are built from the same
accumulated channel vector (duplication for the opposite spin state, and
the relative-uncertainty matrix is duplicated too), and each channel of
each spin is multiplied by a polarization factor derived from the
Weinberg angle: channels 1 and 2 by the square of that spin factor
(quadratic group), channels 3 and 4 by the factor itself (linear group),
channel 0 by no polarization factor at all; the spin-0 factor is
`1 - 2·sin²θ_W` and the spin-1 factor is `-2·sin²θ_W`. The remaining
multiplier is the spin-independent common and channel scaling. -/
theorem C5_spin_polarization_factors (b : ResultsBuilder) (s : Fin 2) (i : Fin 5) :
    b.finalize.spm2 s i =
      b.spm2 i *
        (if (i : ℕ) = 1 ∨ (i : ℕ) = 2 then sqr (spinPol b.config s)
         else if (i : ℕ) = 3 ∨ (i : ℕ) = 4 then spinPol b.config s
         else 1) *
        (b.fact_com * (1 / (2 * sqr b.config.e_tot)) * b.norm_weight) *
        chanScaleFactor b i ∧
    b.finalize.vars 1 = b.finalize.vars 0 ∧
    spinPol b.config 0 = 1 + -2 * b.config.sin2_w ∧
    spinPol b.config 1 = -2 * b.config.sin2_w := by
  refine ⟨?_, rfl, rfl, rfl⟩
  fin_cases s <;> fin_cases i <;>
    simp only [ResultsBuilder.finalize, chanScaleFactor, spinPol, applyRange,
      show ((0 : Fin 5) : ℕ) = 0 from rfl, show ((1 : Fin 5) : ℕ) = 1 from rfl,
      show ((2 : Fin 5) : ℕ) = 2 from rfl, show ((3 : Fin 5) : ℕ) = 3 from rfl,
      show ((4 : Fin 5) : ℕ) = 4 from rfl, Matrix.cons_val_zero, Matrix.cons_val_one,
      Matrix.head_cons] <;> norm_num

/-- Claim C6. In `finalize`, every channel of both spin states (after the
polarization step) is multiplied by the flux factor `1/(2·E_total²)`, the
combinatorial factor `fact_com` and the normalized weight, and then by
the channel-specific scale: channel 0 unscaled, channels 1 and 2 by
`propag/(Γ_Z·M_Z)²`, channel 3 by `propag·ecart_pic/(Γ_Z·M_Z)` and
channel 4 by `propag/(Γ_Z·M_Z)`. -/
theorem C6_flux_and_channel_scaling (b : ResultsBuilder) (s : Fin 2) (i : Fin 5) :
    b.finalize.spm2 s i =
      polarizedSpm2 b s i * (b.fact_com * (1 / (2 * sqr b.config.e_tot)) * b.norm_weight) *
        (if (i : ℕ) = 0 then 1
         else if (i : ℕ) = 1 ∨ (i : ℕ) = 2 then
           b.propag / sqr (b.config.g_z0 * b.config.m_z0)
         else if (i : ℕ) = 3 then
           b.propag * b.ecart_pic / (b.config.g_z0 * b.config.m_z0)
         else b.propag / (b.config.g_z0 * b.config.m_z0)) := by
  fin_cases s <;> fin_cases i <;>
    simp only [ResultsBuilder.finalize, polarizedSpm2, chanScaleFactor, spinPol, applyRange,
      show ((0 : Fin 5) : ℕ) = 0 from rfl, show ((1 : Fin 5) : ℕ) = 1 from rfl,
      show ((2 : Fin 5) : ℕ) = 2 from rfl, show ((3 : Fin 5) : ℕ) = 3 from rfl,
      show ((4 : Fin 5) : ℕ) = 4 from rfl, Matrix.cons_val_zero, Matrix.cons_val_one,
      Matrix.head_cons] <;> norm_num

/-- Claim C7. After the per-channel scaling, `beta_min` is the square
root of the both-spin sum of channel 0 over the both-spin sum of channel
1; the significances `ss_p` and `ss_m` are the both-spin sums of channels
1 and 2 divided by twice the square root of the both-spin channel-0 sum;
and their uncertainties combine, in quadrature, the per-spin relative
uncertainties of the numerator channel (the `sqrt(sqr(·)+sqr(·))/|·|`
term), plus the shared denominator-uncertainty term built from channel 0. -/
theorem C7_derived_observables (b : ResultsBuilder) :
    b.finalize.beta_min =
      Real.sqrt ((b.finalize.spm2 0 0 + b.finalize.spm2 1 0) /
        (b.finalize.spm2 0 1 + b.finalize.spm2 1 1)) ∧
    b.finalize.ss_p = (b.finalize.spm2 0 1 + b.finalize.spm2 1 1) /
        (2 * Real.sqrt (b.finalize.spm2 0 0 + b.finalize.spm2 1 0)) ∧
    b.finalize.ss_m = (b.finalize.spm2 0 2 + b.finalize.spm2 1 2) /
        (2 * Real.sqrt (b.finalize.spm2 0 0 + b.finalize.spm2 1 0)) ∧
    b.finalize.inc_ss_p =
      Real.sqrt (sqr (b.finalize.spm2 0 1 * b.finalize.vars 0 1) +
          sqr (b.finalize.spm2 1 1 * b.finalize.vars 1 1)) /
        |b.finalize.spm2 0 1 + b.finalize.spm2 1 1| +
      Real.sqrt (sqr (b.finalize.spm2 0 0 * b.finalize.vars 0 0) +
          sqr (b.finalize.spm2 1 0 * b.finalize.vars 1 0)) /
        (2 * |b.finalize.spm2 0 0 + b.finalize.spm2 1 0|) ∧
    b.finalize.inc_ss_m =
      Real.sqrt (sqr (b.finalize.spm2 0 2 * b.finalize.vars 0 2) +
          sqr (b.finalize.spm2 1 2 * b.finalize.vars 1 2)) /
        |b.finalize.spm2 0 2 + b.finalize.spm2 1 2| +
      Real.sqrt (sqr (b.finalize.spm2 0 0 * b.finalize.vars 0 0) +
          sqr (b.finalize.spm2 1 0 * b.finalize.vars 1 0)) /
        (2 * |b.finalize.spm2 0 0 + b.finalize.spm2 1 0|) :=
  ⟨rfl, rfl, rfl, rfl, rfl⟩

/-- Claim C8. Integrating the all-zero contribution any number of times
into a fresh accumulator leaves the accumulated total cross-section at
exactly 0, and after `finalize` the total cross-section and the total
variance are exactly 0 (stated for configurations requesting at least 2
events, where the variance denominator of the reference program is
nonzero and the IEEE evaluation agrees with the real-number embedding). -/
theorem C8_zero_contribution (cfg : Configuration) (w : ℝ) (N : ℕ)
    (h : 2 ≤ cfg.num_events) :
    (integrateList (ResultsBuilder.new cfg w) (List.replicate N RVec.zero)).sigma = 0 ∧
    (integrateList (ResultsBuilder.new cfg w) (List.replicate N RVec.zero)).finalize.sigma
      = 0 ∧
    (integrateList (ResultsBuilder.new cfg w)
      (List.replicate N RVec.zero)).finalize.variance = 0 := by
  obtain ⟨h1, h2⟩ := integrateList_zero_sums N (ResultsBuilder.new cfg w) rfl rfl
  refine ⟨h1, ?_, ?_⟩
  · have e : (integrateList (ResultsBuilder.new cfg w)
        (List.replicate N RVec.zero)).finalize.sigma =
      (integrateList (ResultsBuilder.new cfg w) (List.replicate N RVec.zero)).sigma *
        (1 / (2 * sqr (integrateList (ResultsBuilder.new cfg w)
          (List.replicate N RVec.zero)).config.e_tot)) := rfl
    rw [e, h1, zero_mul]
  · have e : (integrateList (ResultsBuilder.new cfg w)
        (List.replicate N RVec.zero)).finalize.variance =
      ((integrateList (ResultsBuilder.new cfg w) (List.replicate N RVec.zero)).variance -
        sqr (integrateList (ResultsBuilder.new cfg w)
          (List.replicate N RVec.zero)).sigma /
          ((integrateList (ResultsBuilder.new cfg w)
            (List.replicate N RVec.zero)).config.num_events : ℝ)) /
        (((integrateList (ResultsBuilder.new cfg w)
          (List.replicate N RVec.zero)).config.num_events : ℝ) - 1) := rfl
    rw [e, h1, h2]
    simp [sqr]

/-- Claim C8, witness: the zero-contribution property instantiated at the
concrete configuration `cexCfg` (4 configured events), zero raw weight
and 3 repetitions. -/
theorem C8_zero_contribution_witness :
    2 ≤ cexCfg.num_events ∧
    ((integrateList (ResultsBuilder.new cexCfg 0) (List.replicate 3 RVec.zero)).sigma = 0 ∧
     (integrateList (ResultsBuilder.new cexCfg 0)
       (List.replicate 3 RVec.zero)).finalize.sigma = 0 ∧
     (integrateList (ResultsBuilder.new cexCfg 0)
       (List.replicate 3 RVec.zero)).finalize.variance = 0) :=
  ⟨by decide, C8_zero_contribution cexCfg 0 3 (by decide)⟩

/-- Claim C9. Every variance denominator of `finalize` (per-channel
two-pass variance and relative uncertainty, total variance, relative
precision) uses the configured `Configuration.num_events`, not the
`selected_events` counter of `integrate` calls; consequently `finalize`
output is entirely insensitive to `selected_events` except for copying
it out verbatim, and an accumulator with fewer integrated events than
configured is normalized by the configured count (yielding the plain
finite formula values whenever `num_events ≥ 2` and the sums are
non-degenerate). -/
theorem C9_denominators_use_configured_count (b : ResultsBuilder) (k : ℤ) :
    b.finalize.variance =
      (b.variance - sqr b.sigma / (b.config.num_events : ℝ)) /
        ((b.config.num_events : ℝ) - 1) ∧
    (∀ s i, b.finalize.vars s i =
      Real.sqrt (((b.vars i - sqr (b.spm2 i) / (b.config.num_events : ℝ)) /
          ((b.config.num_events : ℝ) - 1)) / (b.config.num_events : ℝ)) /
        |b.spm2 i / (b.config.num_events : ℝ)|) ∧
    b.finalize.prec =
      Real.sqrt (b.finalize.variance / (b.config.num_events : ℝ)) /
        |b.sigma / (b.config.num_events : ℝ)| ∧
    ({ b with selected_events := k } : ResultsBuilder).finalize =
      { b.finalize with selected_events := k } :=
  ⟨rfl, fun s i => rfl, rfl, rfl⟩

/-- Claim C10. The analytic cross-check reporting functions `eric` and
`fawzi` both begin by asserting that the incoming particle count equals 2
and the outgoing particle count equals 3; under the modelled constants
`INCOMING_COUNT = 2` and `OUTGOING_COUNT = 3` the assertion guard always
passes (so each function returns a report rather than the panic value
`none`), and the `FinalResults` record after the call is exactly the
record before the call: neither function mutates any field. -/
theorem C10_cross_checks_assert_and_preserve (r : FinalResults) :
    r.eric.map Prod.snd = some r ∧
    r.fawzi.map Prod.snd = some r ∧
    INCOMING_COUNT = 2 ∧ OUTGOING_COUNT = 3 := by
  refine ⟨?_, ?_, rfl, rfl⟩
  · simp [FinalResults.eric, INCOMING_COUNT, OUTGOING_COUNT]
  · simp [FinalResults.fawzi, INCOMING_COUNT, OUTGOING_COUNT]
